import Mathlib

/-!
Shallow embedding of the strict-encoding library slice consisting of
`src/encoding/traits.rs` (the length-prefix tiering of
`TypedWrite::write_raw_len` and the `Serialize` / `Deserialize`
convenience layer) and `src/value/reify.rs` (the reification engine
`TypeSystem::load` with its helpers `read_list` and `read_map`).

Byte streams are `List Nat`, one element per wire byte; machine-integer
casts are explicit `% 2 ^ w`.  Rust panics (`unreachable!`, `todo!`)
are modelled as explicit outcomes distinct from returned errors.
Recursion through the schema registry is bounded by a fuel parameter;
a fuel-exhaustion result (`none`) is a model artefact, never produced
by any theorem below for sufficient fuel.
-/

namespace StrictTypes

/-- Little-endian byte encoding of `v` in `w` bytes. -/
def le_bytes (w v : Nat) : List Nat :=
  (List.range w).map (fun i => v / 256 ^ i % 256)

/-- The prefix width selected by the `match MAX_LEN` tier guards of
`TypedWrite::write_raw_len` (traits.rs lines 89-99); `none` models the
`unreachable!` arm for maxima at or above `u32::MAX`. -/
def write_raw_len_width (maxLen : Nat) : Option Nat :=
  if maxLen ≤ 255 then some 1
  else if maxLen < 65535 then some 2
  else if maxLen < 16777215 then some 3
  else if maxLen < 4294967295 then some 4
  else none

/-- `TypedWrite::write_raw_len` (traits.rs lines 89-99): the `as u8` /
`as u16` / `as u32` casts become explicit `% 2 ^ w`; the `u24` tier
first casts `len as u32` and then applies the bounds-checked
`u24::with`, so a remainder at or above `2 ^ 24` panics.  `none`
models a panic (the `unreachable!` arm or the `u24::with` bound). -/
def write_raw_len (maxLen len : Nat) : Option (List Nat) :=
  if maxLen ≤ 255 then some (le_bytes 1 (len % 2 ^ 8))
  else if maxLen < 65535 then some (le_bytes 2 (len % 2 ^ 16))
  else if maxLen < 16777215 then
    if len % 2 ^ 32 < 2 ^ 24 then some (le_bytes 3 (len % 2 ^ 32)) else none
  else if maxLen < 4294967295 then some (le_bytes 4 (len % 2 ^ 32))
  else none

/-- `SerializeError` (declared outside this slice): an underlying io
failure or a size-confinement failure. -/
inductive SerializeError where
  | io
  | confinement

/-- Modelled from the spec: the external `StrictWriter` is a byte sink
bounded by a limit; `sink` holds the bytes written so far. -/
structure StrictWriter where
  limit : Nat
  sink : List Nat

/-- Modelled from the spec: a raw write on the bounded writer appends
the chunk, failing (io error) when it would exceed the limit. -/
def writer_write (w : StrictWriter) (chunk : List Nat) : Option StrictWriter :=
  if w.sink.length + chunk.length ≤ w.limit then some { w with sink := w.sink ++ chunk }
  else none

/-- Running a value's `strict_encode` against a writer.  A value
interacts with the writer only through raw byte writes, so an encoder
is represented by its trace: the sequence of byte chunks it writes.
Returns the overall result together with the writer state actually
reached, i.e. the bytes persisted before any failure. -/
def run_encode : StrictWriter → List (List Nat) → Except SerializeError StrictWriter × StrictWriter
  | w, [] => (.ok w, w)
  | w, c :: cs =>
    match writer_write w c with
    | none => (.error .io, w)
    | some w2 => run_encode w2 cs

/-- `Serialize::to_strict_serialized` (traits.rs lines 216-222): encode
into an in-memory writer bounded by `MAX`, then confine the resulting
bytes to `[0, MAX]` (`Confined::try_from`). -/
def to_strict_serialized (MAX : Nat) (chunks : List (List Nat)) : Except SerializeError (List Nat) :=
  match (run_encode ⟨MAX, []⟩ chunks).1 with
  | .error e => .error e
  | .ok w => if w.sink.length ≤ MAX then .ok w.sink else .error .confinement

/-- `Serialize::strict_serialize_to_file` (traits.rs lines 224-231):
`File::create` truncates the target, then the encoding is written
through the bounded writer.  The second component is the file content
left at the path after the call returns. -/
def strict_serialize_to_file (MAX : Nat) (chunks : List (List Nat)) : Except SerializeError Unit × List Nat :=
  match run_encode ⟨MAX, []⟩ chunks with
  | (.error e, w) => (.error e, w.sink)
  | (.ok _, w) => (.ok (), w.sink)

/-- `DecodeError` (declared outside this slice): the wrapped low-level
decode failures referenced by the code in this slice.  `truncated`
models the unexpected-end-of-stream io failure. -/
inductive DecodeError where
  | truncated
  | enumTagNotKnown (spec : String) (tag : Nat)

/-- `DeserializeError` (declared outside this slice), as used by the
`Deserialize` trait in traits.rs. -/
inductive DeserializeError where
  | decode (e : DecodeError)
  | dataNotEntirelyConsumed

/-- An `io::Cursor` over a byte buffer, also modelling an open file
handle: the full contents plus the current read position. -/
structure Cursor where
  data : List Nat
  pos : Nat

/-- `BufRead::fill_buf` on a cursor: the remaining unread bytes. -/
def fill_buf (c : Cursor) : List Nat := c.data.drop c.pos

/-- `Deserialize::from_strict_serialized` (traits.rs lines 235-246):
run `strict_decode` from the start of the buffer; if any unread bytes
remain afterwards, fail with `DataNotEntirelyConsumed`. -/
def from_strict_serialized {α : Type} (strict_decode : Cursor → Except DecodeError (α × Cursor))
    (ast_data : List Nat) : Except DeserializeError α :=
  match strict_decode ⟨ast_data, 0⟩ with
  | .error e => .error (.decode e)
  | .ok (me, cursor) =>
    if (fill_buf cursor).isEmpty then .ok me else .error .dataNotEntirelyConsumed

/-- `Deserialize::strict_deserialize_from_file` (traits.rs lines
248-259): run `strict_decode` from the start of the file; afterwards
compare `stream_position` (the cursor `pos`) with `seek(SeekFrom::End(0))`
(the file length) and fail with `DataNotEntirelyConsumed` when they
differ. -/
def strict_deserialize_from_file {α : Type} (strict_decode : Cursor → Except DecodeError (α × Cursor))
    (file : List Nat) : Except DeserializeError α :=
  match strict_decode ⟨file, 0⟩ with
  | .error e => .error (.decode e)
  | .ok (me, f) =>
    if f.pos ≠ f.data.length then .error .dataNotEntirelyConsumed else .ok me

/-- Semantic type identifier (`SemId`), the registry key used to
resolve nested types; also stands for the `TypeSpec` lookup key, which
reify.rs only resolves, clones and renders. -/
abbrev SemId := Nat

/-- The primitive kinds distinguished by the `Ty::Primitive` arm of
`TypeSystem::load`: the eleven implemented integer widths, the
commented-out `I24`, and any `other` primitive code. -/
inductive Prim where
  | u8 | u16 | u24 | u32 | u64 | u128
  | i8 | i16 | i24 | i32 | i64 | i128
  | other (code : Nat)

/-- Byte width and signedness of the implemented primitive decoders in
the `Ty::Primitive` arm; `none` for the kinds that fall to the
`NotImplemented` arm (`I24` is commented out in the source match). -/
def prim_width : Prim → Option (Nat × Bool)
  | .u8 => some (1, false)
  | .u16 => some (2, false)
  | .u24 => some (3, false)
  | .u32 => some (4, false)
  | .u64 => some (8, false)
  | .u128 => some (16, false)
  | .i8 => some (1, true)
  | .i16 => some (2, true)
  | .i32 => some (4, true)
  | .i64 => some (8, true)
  | .i128 => some (16, true)
  | .i24 => none
  | .other _ => none

/-- Display name of a primitive kind, used in the `NotImplemented`
message text. -/
def prim_name : Prim → String
  | .u8 => "U8"
  | .u16 => "U16"
  | .u24 => "U24"
  | .u32 => "U32"
  | .u64 => "U64"
  | .u128 => "U128"
  | .i8 => "I8"
  | .i16 => "I16"
  | .i24 => "I24"
  | .i32 => "I32"
  | .i64 => "I64"
  | .i128 => "I128"
  | .other c => toString c

/-- A collection size bound (`Sizing`): inclusive minimum and maximum. -/
structure Sizing where
  min : Nat
  max : Nat

/-- A named enum/union variant with its 8-bit tag. -/
structure Variant where
  name : String
  tag : Nat

/-- A named struct field with the semantic id of its type. -/
structure Field where
  name : String
  ty : SemId

/-- The type-shape tree (`Ty<SemId>`) as dispatched on by
`TypeSystem::load`.  The map key type is modelled by the semantic id
that `key_ty.to_ty().id(None)` resolves to (the `KeyTy` conversion is
outside this slice). -/
inductive Ty where
  | primitive (prim : Prim)
  | unicodeChar
  | enum (variants : List Variant)
  | union (variants : List (Variant × SemId))
  | tuple (reqs : List SemId)
  | struct (reqs : List Field)
  | array (ty : SemId) (len : Nat)
  | list (ty : SemId) (sizing : Sizing)
  | set (ty : SemId) (sizing : Sizing)
  | map (keyTy : SemId) (ty : SemId) (sizing : Sizing)

/-- The schema registry: `find` resolves a specifier to its type
shape.  `isUnicodeChar` / `isAsciiChar` model the `SemId` predicates
used by the string-tier guards of the `Ty::List` arms (the character
types themselves are declared outside this slice). -/
structure TypeSystem where
  find : SemId → Option Ty
  isUnicodeChar : SemId → Bool
  isAsciiChar : SemId → Bool

/-- The generic runtime value (`StrictVal`) produced by reification.
Struct fields are an insertion-order-preserving name-to-value mapping
(`IndexMap`); text content is kept as raw bytes. -/
inductive StrictVal where
  | num (n : Int)
  | string (bytes : List Nat)
  | enumer (tag : Nat)
  | union (tag : Nat) (val : StrictVal)
  | tuple (fields : List StrictVal)
  | struct (fields : List (String × StrictVal))
  | list (items : List StrictVal)
  | set (items : List StrictVal)
  | map (items : List (StrictVal × StrictVal))

/-- A decoded generic value paired with the specifier it was decoded
against (`TypedVal`). -/
structure TypedVal where
  val : StrictVal
  spec : SemId

/-- The reification error type (`reify::Error`). -/
inductive Error where
  | typeAbsent (spec : SemId)
  | notImplemented (msg : String)
  | decode (e : DecodeError)

/-- Outcome of a failing `load`: a returned `Err` value, or a panic
(`todo!`), which the source distinguishes by control flow. -/
inductive LoadFail where
  | err (e : Error)
  | panic (msg : String)

/-- Result of a `load` step: `none` is fuel exhaustion (model
artefact); otherwise either a failure or the decoded value with the
remaining stream. -/
abbrev LoadRes := Option (Except LoadFail (TypedVal × List Nat))

/-- Result of a dispatch arm before the final `TypedVal` pairing. -/
abbrev ValRes := Option (Except LoadFail (StrictVal × List Nat))

/-- Read `n` raw bytes from the stream; `none` is an unexpected end of
stream. -/
def read_bytes (n : Nat) (d : List Nat) : Option (List Nat × List Nat) :=
  if d.length < n then none else some (d.take n, d.drop n)

/-- Little-endian value of a byte list. -/
def le_val : List Nat → Nat
  | [] => 0
  | b :: bs => b + 256 * le_val bs

/-- Reading a `w`-byte unsigned value as a two's-complement signed
integer. -/
def to_signed (w v : Nat) : Int :=
  if v < 2 ^ (8 * w - 1) then (v : Int) else (v : Int) - 2 ^ (8 * w)

/-- `EnumVariants::has_tag`: membership of a tag among the declared
variants. -/
def has_tag (vs : List Variant) (tag : Nat) : Bool :=
  vs.any (fun v => v.tag == tag)

/-- `UnionVariants::ty_by_ord`: the payload type of the variant with
the given ordinal tag, if declared. -/
def ty_by_ord (vs : List (Variant × SemId)) (ord : Nat) : Option SemId :=
  (vs.find? (fun v => v.1.tag == ord)).map (fun v => v.2)

/-- `IndexMap::insert`: if the key is present, replace its value in
place (the key keeps its original position); otherwise append. -/
def indexMapInsert (m : List (String × StrictVal)) (k : String) (v : StrictVal) :
    List (String × StrictVal) :=
  if m.any (fun p => p.1 == k) then m.map (fun p => if p.1 == k then (k, v) else p)
  else m ++ [(k, v)]

/-- The message of the unknown-primitive `NotImplemented` arm. -/
def not_implemented_msg (p : Prim) : String :=
  "loading " ++ prim_name p ++ " into a typed value is not yet implemented"

/-- `TypeSystem::read_list` (reify.rs lines 63-75), with the recursive
`self.load` call abstracted as `ld`. -/
def read_list (ld : SemId → List Nat → LoadRes) :
    Nat → SemId → List Nat → Option (Except LoadFail (List StrictVal × List Nat))
  | 0, _, d => some (.ok ([], d))
  | n + 1, ty, d =>
    match ld ty d with
    | none => none
    | some (.error e) => some (.error e)
    | some (.ok (item, d1)) =>
      match read_list ld n ty d1 with
      | none => none
      | some (.error e) => some (.error e)
      | some (.ok (items, d2)) => some (.ok (item.val :: items, d2))

/-- `TypeSystem::read_map` (reify.rs lines 77-91): for each entry load
the key type, then the value type. -/
def read_map (ld : SemId → List Nat → LoadRes) :
    Nat → SemId → SemId → List Nat → Option (Except LoadFail (List (StrictVal × StrictVal) × List Nat))
  | 0, _, _, d => some (.ok ([], d))
  | n + 1, kt, vt, d =>
    match ld kt d with
    | none => none
    | some (.error e) => some (.error e)
    | some (.ok (key, d1)) =>
      match ld vt d1 with
      | none => none
      | some (.error e) => some (.error e)
      | some (.ok (item, d2)) =>
        match read_map ld n kt vt d2 with
        | none => none
        | some (.error e) => some (.error e)
        | some (.ok (items, d3)) => some (.ok ((key.val, item.val) :: items, d3))

/-- The `Ty::Tuple` field loop of `load`: load each declared field
type in declared order. -/
def read_tuple (ld : SemId → List Nat → LoadRes) :
    List SemId → List Nat → Option (Except LoadFail (List StrictVal × List Nat))
  | [], d => some (.ok ([], d))
  | t :: ts, d =>
    match ld t d with
    | none => none
    | some (.error e) => some (.error e)
    | some (.ok (item, d1)) =>
      match read_tuple ld ts d1 with
      | none => none
      | some (.error e) => some (.error e)
      | some (.ok (items, d2)) => some (.ok (item.val :: items, d2))

/-- The `Ty::Struct` field loop of `load`: load each declared field by
its declared type in declared order, inserting into the order-
preserving mapping under the field's declared name. -/
def read_fields (ld : SemId → List Nat → LoadRes) :
    List Field → List Nat → List (String × StrictVal) →
    Option (Except LoadFail (List (String × StrictVal) × List Nat))
  | [], d, acc => some (.ok (acc, d))
  | f :: fs, d, acc =>
    match ld f.ty d with
    | none => none
    | some (.error e) => some (.error e)
    | some (.ok (item, d1)) => read_fields ld fs d1 (indexMapInsert acc f.name item.val)

/-- Modelled from the spec: the tier-matched bounded string decode
(`TinyString` … `LargeAscii`, declared outside this slice) reads a
`w`-byte length prefix followed by that many raw text bytes; the
character-set validation of those external types is not modelled. -/
def read_str (w : Nat) (d : List Nat) : ValRes :=
  match read_bytes w d with
  | none => some (.error (.err (.decode .truncated)))
  | some (lb, rest) =>
    match read_bytes (le_val lb) rest with
    | none => some (.error (.err (.decode .truncated)))
    | some (sb, rest2) => some (.ok (.string sb, rest2))

/-- One non-text list/set tier arm of `load`: decode a `w`-byte length
prefix, then `read_list` that many elements, wrapping the result with
`mk` (`StrictVal.list` or `StrictVal.set`). -/
def read_col (ld : SemId → List Nat → LoadRes) (w : Nat) (ty : SemId)
    (mk : List StrictVal → StrictVal) (d : List Nat) : ValRes :=
  match read_bytes w d with
  | none => some (.error (.err (.decode .truncated)))
  | some (lb, rest) =>
    match read_list ld (le_val lb) ty rest with
    | none => none
    | some (.error e) => some (.error e)
    | some (.ok (items, d2)) => some (.ok (mk items, d2))

/-- One map tier arm of `load`: decode a `w`-byte length prefix, then
`read_map` that many key/value entries. -/
def read_map_col (ld : SemId → List Nat → LoadRes) (w : Nat) (kt vt : SemId)
    (d : List Nat) : ValRes :=
  match read_bytes w d with
  | none => some (.error (.err (.decode .truncated)))
  | some (lb, rest) =>
    match read_map ld (le_val lb) kt vt rest with
    | none => none
    | some (.error e) => some (.error e)
    | some (.ok (items, d2)) => some (.ok (.map items, d2))

/-- The dispatch of `TypeSystem::load` (reify.rs lines 103-298) on the
resolved type shape, producing the raw value; `ld` abstracts the
recursive `self.load`.  Guard chains keep the source arm order: the
eight string arms of `Ty::List` precede the generic tiers. -/
def loadVal (sys : TypeSystem) (ld : SemId → List Nat → LoadRes) (s : SemId)
    (t : Ty) (d : List Nat) : ValRes :=
  match t with
  | .primitive p =>
    match prim_width p with
    | none => some (.error (.err (.notImplemented (not_implemented_msg p))))
    | some wd =>
      match read_bytes wd.1 d with
      | none => some (.error (.err (.decode .truncated)))
      | some (bs, rest) =>
        some (.ok (.num (if wd.2 then to_signed wd.1 (le_val bs) else (le_val bs : Int)), rest))
  | .unicodeChar => some (.error (.panic "not yet implemented"))
  | .enum vs =>
    match read_bytes 1 d with
    | none => some (.error (.err (.decode .truncated)))
    | some (bs, rest) =>
      if has_tag vs (le_val bs) then some (.ok (.enumer (le_val bs), rest))
      else some (.error (.err (.decode (.enumTagNotKnown (toString s) (le_val bs)))))
  | .union vs =>
    match read_bytes 1 d with
    | none => some (.error (.err (.decode .truncated)))
    | some (bs, rest) =>
      match ty_by_ord vs (le_val bs) with
      | none => some (.error (.err (.decode (.enumTagNotKnown (toString s) (le_val bs)))))
      | some ty =>
        match ld ty rest with
        | none => none
        | some (.error e) => some (.error e)
        | some (.ok (fields, d2)) => some (.ok (.union (le_val bs) fields.val, d2))
  | .tuple reqs =>
    match read_tuple ld reqs d with
    | none => none
    | some (.error e) => some (.error e)
    | some (.ok (fields, d2)) => some (.ok (.tuple fields, d2))
  | .struct reqs =>
    match read_fields ld reqs d [] with
    | none => none
    | some (.error e) => some (.error e)
    | some (.ok (fields, d2)) => some (.ok (.struct fields, d2))
  | .array _ _ => some (.error (.panic "not yet implemented"))
  | .list ty sz =>
    if sys.isUnicodeChar ty = true ∧ sz.max ≤ 255 then read_str 1 d
    else if sys.isUnicodeChar ty = true ∧ sz.max ≤ 65535 then read_str 2 d
    else if sys.isUnicodeChar ty = true ∧ sz.max ≤ 16777215 then read_str 3 d
    else if sys.isUnicodeChar ty = true ∧ sz.max ≤ 4294967295 then read_str 4 d
    else if sys.isAsciiChar ty = true ∧ sz.max ≤ 255 then read_str 1 d
    else if sys.isAsciiChar ty = true ∧ sz.max ≤ 65535 then read_str 2 d
    else if sys.isAsciiChar ty = true ∧ sz.max ≤ 16777215 then read_str 3 d
    else if sys.isAsciiChar ty = true ∧ sz.max ≤ 4294967295 then read_str 4 d
    else if sz.max ≤ 255 then read_col ld 1 ty .list d
    else if sz.max ≤ 65535 then read_col ld 2 ty .list d
    else if sz.max ≤ 16777215 then read_col ld 3 ty .list d
    else if sz.max ≤ 4294967295 then read_col ld 4 ty .list d
    else read_col ld 8 ty .list d
  | .set ty sz =>
    if sz.max ≤ 255 then read_col ld 1 ty .set d
    else if sz.max ≤ 65535 then read_col ld 2 ty .set d
    else if sz.max ≤ 16777215 then read_col ld 3 ty .set d
    else if sz.max ≤ 4294967295 then read_col ld 4 ty .set d
    else read_col ld 8 ty .set d
  | .map kt vt sz =>
    if sz.max ≤ 255 then read_map_col ld 1 kt vt d
    else if sz.max ≤ 65535 then read_map_col ld 2 kt vt d
    else if sz.max ≤ 16777215 then read_map_col ld 3 kt vt d
    else if sz.max ≤ 4294967295 then read_map_col ld 4 kt vt d
    else read_map_col ld 8 kt vt d

/-- One unfolding of `TypeSystem::load`: resolve the specifier against
the registry (failing with `TypeAbsent`), dispatch on the shape, and
pair the decoded value with the original specifier. -/
def loadBody (sys : TypeSystem) (ld : SemId → List Nat → LoadRes) (s : SemId)
    (d : List Nat) : LoadRes :=
  match sys.find s with
  | none => some (.error (.err (.typeAbsent s)))
  | some t =>
    match loadVal sys ld s t d with
    | none => none
    | some (.error e) => some (.error e)
    | some (.ok (val, d2)) => some (.ok (⟨val, s⟩, d2))

/-- `TypeSystem::load` (reify.rs lines 93-301), with a fuel bound on
the recursion depth through the registry. -/
def load (sys : TypeSystem) : Nat → SemId → List Nat → LoadRes
  | 0, _, _ => none
  | fuel + 1, s, d => loadBody sys (load sys fuel) s d

/-- The declared field names of a decoded struct value, in iteration
order of its name-to-value mapping; `none` on any other value shape. -/
def struct_keys : StrictVal → Option (List String)
  | .struct m => some (m.map Prod.fst)
  | _ => none

/-- Classifier: does a load result carry the returned `NotImplemented`
error value (as opposed to a panic or anything else)? -/
def is_not_implemented_err : LoadRes → Bool
  | some (.error (.err (.notImplemented _))) => true
  | _ => false

/-- A concrete registry used to instantiate theorems: id 0 is `u8`;
1 and 2 are two-field structs (distinct and duplicated names); 3 is a
three-tag enum; 4 is a two-variant union over `u8`; 5-7 are a list, a
set and a map of `u8` bounded by `[2, 5]`; 8 is a `u8` list bounded by
`[0, 300]`. -/
def sys_w : TypeSystem :=
  ⟨fun i =>
    if i = 0 then some (.primitive .u8) else
    if i = 1 then some (.struct [⟨"a", 0⟩, ⟨"b", 0⟩]) else
    if i = 2 then some (.struct [⟨"a", 0⟩, ⟨"a", 0⟩]) else
    if i = 3 then some (.enum [⟨"x", 0⟩, ⟨"y", 1⟩, ⟨"z", 2⟩]) else
    if i = 4 then some (.union [(⟨"u", 0⟩, 0), (⟨"v", 1⟩, 0)]) else
    if i = 5 then some (.list 0 ⟨2, 5⟩) else
    if i = 6 then some (.set 0 ⟨2, 5⟩) else
    if i = 7 then some (.map 0 0 ⟨2, 5⟩) else
    if i = 8 then some (.list 0 ⟨0, 300⟩) else none,
  fun _ => false, fun _ => false⟩

/-- A concrete registry exhibiting the tier-boundary declared maxima:
id 0 is `u8`; 1 is a `u8` list with declared maximum 65535; 2 is a
`u8` list with declared maximum 16777215. -/
def sys_c2 : TypeSystem :=
  ⟨fun i =>
    if i = 0 then some (.primitive .u8) else
    if i = 1 then some (.list 0 ⟨0, 65535⟩) else
    if i = 2 then some (.list 0 ⟨0, 16777215⟩) else none,
  fun _ => false, fun _ => false⟩

/-- A concrete registry with the unimplemented shapes: id 0 is the
bare unicode scalar; 1 a fixed-size array; 2 an unknown primitive
code; 3 the `I24` primitive. -/
def sys_c5 : TypeSystem :=
  ⟨fun i =>
    if i = 0 then some .unicodeChar else
    if i = 1 then some (.array 9 4) else
    if i = 2 then some (.primitive (.other 77)) else
    if i = 3 then some (.primitive .i24) else none,
  fun _ => false, fun _ => false⟩

/-- A concrete one-byte `strict_decode` used to instantiate the
deserialization theorems: reads the byte at the cursor and advances. -/
def u8_decode (c : Cursor) : Except DecodeError (Nat × Cursor) :=
  match c.data.drop c.pos with
  | [] => .error .truncated
  | b :: _ => .ok (b, ⟨c.data, c.pos + 1⟩)

/- Helper lemmas shared by the claim theorems. -/

theorem le_bytes_length (w v : Nat) : (le_bytes w v).length = w := by
  simp [le_bytes]

theorem write_raw_len_some_length (m len : Nat) (out : List Nat)
    (h : write_raw_len m len = some out) : write_raw_len_width m = some out.length := by
  unfold write_raw_len at h
  unfold write_raw_len_width
  by_cases h1 : m ≤ 255
  · rw [if_pos h1] at h
    rw [if_pos h1]
    injection h with h
    rw [← h, le_bytes_length]
  · rw [if_neg h1] at h
    rw [if_neg h1]
    by_cases h2 : m < 65535
    · rw [if_pos h2] at h
      rw [if_pos h2]
      injection h with h
      rw [← h, le_bytes_length]
    · rw [if_neg h2] at h
      rw [if_neg h2]
      by_cases h3 : m < 16777215
      · rw [if_pos h3] at h
        rw [if_pos h3]
        by_cases h4 : len % 2 ^ 32 < 2 ^ 24
        · rw [if_pos h4] at h
          injection h with h
          rw [← h, le_bytes_length]
        · rw [if_neg h4] at h
          exact absurd h (by simp)
      · rw [if_neg h3] at h
        rw [if_neg h3]
        by_cases h5 : m < 4294967295
        · rw [if_pos h5] at h
          rw [if_pos h5]
          injection h with h
          rw [← h, le_bytes_length]
        · rw [if_neg h5] at h
          exact absurd h (by simp)

theorem run_encode_limit (cs : List (List Nat)) (w : StrictWriter) :
    (run_encode w cs).2.limit = w.limit := by
  induction cs generalizing w with
  | nil => simp [run_encode]
  | cons c cs ih =>
    by_cases hc : w.sink.length + c.length ≤ w.limit
    · simpa [run_encode, writer_write, hc] using ih _
    · simp [run_encode, writer_write, hc]

theorem run_encode_sink_le (cs : List (List Nat)) (w : StrictWriter)
    (h : w.sink.length ≤ w.limit) :
    (run_encode w cs).2.sink.length ≤ w.limit := by
  induction cs generalizing w with
  | nil => simpa [run_encode] using h
  | cons c cs ih =>
    by_cases hc : w.sink.length + c.length ≤ w.limit
    · have := ih { w with sink := w.sink ++ c } (by simp; omega)
      simpa [run_encode, writer_write, hc] using this
    · simpa [run_encode, writer_write, hc] using h

theorem run_encode_overflow (cs : List (List Nat)) (w : StrictWriter)
    (hs : w.sink.length ≤ w.limit)
    (hover : w.limit < w.sink.length + (cs.map List.length).sum) :
    (run_encode w cs).1 = .error .io := by
  induction cs generalizing w with
  | nil => simp at hover; omega
  | cons c cs ih =>
    by_cases hc : w.sink.length + c.length ≤ w.limit
    · have := ih { w with sink := w.sink ++ c } (by simp; omega)
        (by simp at hover ⊢; omega)
      simpa [run_encode, writer_write, hc] using this
    · simp [run_encode, writer_write, hc]

theorem run_encode_sink_prefix (cs : List (List Nat)) (w : StrictWriter) :
    (run_encode w cs).2.sink <+: w.sink ++ cs.flatten := by
  induction cs generalizing w with
  | nil => simp [run_encode]
  | cons c cs ih =>
    by_cases hc : w.sink.length + c.length ≤ w.limit
    · have := ih { w with sink := w.sink ++ c }
      simpa [run_encode, writer_write, hc] using this
    · simp [run_encode, writer_write, hc]

/- Claim theorems. -/

/-- C1: the write-side length-prefix tier selection of `write_raw_len`
is total and boundary-exact in the declared maximum: width 1 on
`[0, 255]`, 2 on `(255, 65535)`, 3 on `[65535, 16777215)`, 4 on
`[16777215, 4294967295)`; any maximum at or above `4294967295` is
fatal (the `unreachable!` panic, modelled `none`), never a truncation
or a recoverable error; and whenever a prefix is written its byte
length is exactly the selected width. -/
theorem c1_write_raw_len_tiering :
    (∀ m, m ≤ 255 → write_raw_len_width m = some 1) ∧
    (∀ m, 255 < m → m < 65535 → write_raw_len_width m = some 2) ∧
    (∀ m, 65535 ≤ m → m < 16777215 → write_raw_len_width m = some 3) ∧
    (∀ m, 16777215 ≤ m → m < 4294967295 → write_raw_len_width m = some 4) ∧
    (∀ m len, 4294967295 ≤ m → write_raw_len m len = none ∧ write_raw_len_width m = none) ∧
    (∀ m len out, write_raw_len m len = some out → write_raw_len_width m = some out.length) := by
  refine ⟨?_, ?_, ?_, ?_, ?_, write_raw_len_some_length⟩
  · intro m h
    unfold write_raw_len_width
    rw [if_pos h]
  · intro m h1 h2
    unfold write_raw_len_width
    rw [if_neg (by omega), if_pos (by omega)]
  · intro m h1 h2
    unfold write_raw_len_width
    rw [if_neg (by omega), if_neg (by omega), if_pos (by omega)]
  · intro m h1 h2
    unfold write_raw_len_width
    rw [if_neg (by omega), if_neg (by omega), if_neg (by omega), if_pos (by omega)]
  · intro m len h
    constructor
    · unfold write_raw_len
      rw [if_neg (by omega), if_neg (by omega), if_neg (by omega), if_neg (by omega)]
    · unfold write_raw_len_width
      rw [if_neg (by omega), if_neg (by omega), if_neg (by omega), if_neg (by omega)]

/-- Witness for C1 at the boundary maxima. -/
theorem c1_write_raw_len_tiering_witness :
    write_raw_len_width 255 = some 1 ∧ write_raw_len_width 256 = some 2 ∧
    write_raw_len_width 65534 = some 2 ∧ write_raw_len_width 65535 = some 3 ∧
    write_raw_len_width 16777214 = some 3 ∧ write_raw_len_width 16777215 = some 4 ∧
    write_raw_len_width 4294967294 = some 4 ∧ write_raw_len 4294967295 7 = none :=
  ⟨c1_write_raw_len_tiering.1 255 (by omega),
   c1_write_raw_len_tiering.2.1 256 (by omega) (by omega),
   c1_write_raw_len_tiering.2.1 65534 (by omega) (by omega),
   c1_write_raw_len_tiering.2.2.1 65535 (by omega) (by omega),
   c1_write_raw_len_tiering.2.2.1 16777214 (by omega) (by omega),
   c1_write_raw_len_tiering.2.2.2.1 16777215 (by omega) (by omega),
   c1_write_raw_len_tiering.2.2.2.1 4294967294 (by omega) (by omega),
   (c1_write_raw_len_tiering.2.2.2.2.1 4294967295 7 (by omega)).1⟩

/-- C9: `write_raw_len` never validates the length argument against
the selected prefix width: in the one-byte tier every length is
silently written modulo `2 ^ 8`; the two-byte and four-byte tiers
truncate through the `as u16` / `as u32` casts; the three-byte tier
truncates through the `as u32` cast before the bounds-checked
`u24::with`; and the chosen width depends only on the declared
maximum, never on the length. -/
theorem c9_write_raw_len_truncation :
    (∀ m len, m ≤ 255 → write_raw_len m len = some [len % 256]) ∧
    (∀ m len, 255 < m → m < 65535 → write_raw_len m len = some (le_bytes 2 (len % 2 ^ 16))) ∧
    (∀ m len, 65535 ≤ m → m < 16777215 → len % 2 ^ 32 < 2 ^ 24 →
      write_raw_len m len = some (le_bytes 3 (len % 2 ^ 32))) ∧
    (∀ m len, 16777215 ≤ m → m < 4294967295 →
      write_raw_len m len = some (le_bytes 4 (len % 2 ^ 32))) ∧
    (∀ m len1 len2 out1 out2, write_raw_len m len1 = some out1 →
      write_raw_len m len2 = some out2 → out1.length = out2.length) := by
  refine ⟨?_, ?_, ?_, ?_, ?_⟩
  · intro m len h
    unfold write_raw_len
    rw [if_pos h]
    have : le_bytes 1 (len % 2 ^ 8) = [len % 256] := by
      simp [le_bytes, List.range_succ]
    rw [this]
  · intro m len h1 h2
    unfold write_raw_len
    rw [if_neg (by omega), if_pos (by omega)]
  · intro m len h1 h2 h3
    unfold write_raw_len
    rw [if_neg (by omega), if_neg (by omega), if_pos (by omega), if_pos h3]
  · intro m len h1 h2
    unfold write_raw_len
    rw [if_neg (by omega), if_neg (by omega), if_neg (by omega), if_pos (by omega)]
  · intro m len1 len2 out1 out2 h1 h2
    have e1 := write_raw_len_some_length m len1 out1 h1
    have e2 := write_raw_len_some_length m len2 out2 h2
    rw [e1] at e2
    exact Option.some_injective _ e2

/-- Witness for C9: with declared maximum 10 the length 300 is
silently written as the single byte 44 = 300 mod 256; with declared
maximum 1000 the length 70000 is written as its two low-order bytes. -/
theorem c9_write_raw_len_truncation_witness :
    write_raw_len 10 300 = some [44] ∧
    write_raw_len 1000 70000 = some (le_bytes 2 (70000 % 65536)) :=
  ⟨c9_write_raw_len_truncation.1 10 300 (by omega),
   c9_write_raw_len_truncation.2.1 1000 70000 (by omega) (by omega)⟩

/-- C2: refuted on the code.  At the declared maximum 65535 the
reification engine's list arm reads a 2-byte length prefix (here it
consumes exactly the two bytes `[2, 0]` as the length 2 and then two
`u8` elements), while `write_raw_len` selects a 3-byte prefix for the
same declared maximum; likewise 3-byte read versus 4-byte write at
16777215.  The read-side tier guards are inclusive (`<=`) where the
write side is strict (`<`), so the two rules disagree at the tier
boundaries. -/
theorem c2_len_tier_boundary_mismatch :
    load sys_c2 2 1 [2, 0, 7, 8] = some (.ok (⟨.list [.num 7, .num 8], 1⟩, [])) ∧
    write_raw_len_width 65535 = some 3 ∧
    load sys_c2 2 2 [1, 0, 0, 9] = some (.ok (⟨.list [.num 9], 2⟩, [])) ∧
    write_raw_len_width 16777215 = some 4 :=
  ⟨rfl, rfl, rfl, rfl⟩

/-- C3: when `strict_decode` succeeds, `from_strict_serialized`
returns the decoded value exactly when the whole buffer was consumed
and fails with `DataNotEntirelyConsumed` when any bytes remain unread;
`strict_deserialize_from_file` likewise fails with the same condition
whenever the final read position differs from the end of the file. -/
theorem c3_data_not_entirely_consumed {α : Type}
    (strict_decode : Cursor → Except DecodeError (α × Cursor))
    (data : List Nat) (v : α) (n : Nat)
    (h : strict_decode ⟨data, 0⟩ = .ok (v, ⟨data, n⟩)) :
    (data.length ≤ n → from_strict_serialized strict_decode data = .ok v) ∧
    (n < data.length →
      from_strict_serialized strict_decode data = .error .dataNotEntirelyConsumed) ∧
    (n = data.length → strict_deserialize_from_file strict_decode data = .ok v) ∧
    (n ≠ data.length →
      strict_deserialize_from_file strict_decode data = .error .dataNotEntirelyConsumed) := by
  refine ⟨?_, ?_, ?_, ?_⟩
  · intro hle
    simp [from_strict_serialized, h, fill_buf, List.drop_eq_nil_iff, hle]
  · intro hlt
    simp [from_strict_serialized, h, fill_buf, List.drop_eq_nil_iff]
    omega
  · intro he
    simp [strict_deserialize_from_file, h, he]
  · intro hne
    simp [strict_deserialize_from_file, h, hne]

/-- Witness for C3 with a concrete one-byte decoder: decoding `[7]`
consumes everything and succeeds; decoding `[7, 8]` leaves a byte
unread and fails with the not-entirely-consumed condition, in both the
buffer and the file variant. -/
theorem c3_data_not_entirely_consumed_witness :
    from_strict_serialized u8_decode [7] = .ok 7 ∧
    strict_deserialize_from_file u8_decode [7] = .ok 7 ∧
    from_strict_serialized u8_decode [7, 8] = .error .dataNotEntirelyConsumed ∧
    strict_deserialize_from_file u8_decode [7, 8] = .error .dataNotEntirelyConsumed :=
  ⟨(c3_data_not_entirely_consumed u8_decode [7] 7 1 rfl).1 (by decide),
   (c3_data_not_entirely_consumed u8_decode [7] 7 1 rfl).2.2.1 (by decide),
   (c3_data_not_entirely_consumed u8_decode [7, 8] 7 1 rfl).2.1 (by decide),
   (c3_data_not_entirely_consumed u8_decode [7, 8] 7 1 rfl).2.2.2 (by decide)⟩

/-- C6: refuted on the code for the file half.  With bound 2 and an
encoder that writes the three chunks `[1]`, `[2]`, `[3]`,
`strict_serialize_to_file` fails, but the target file is left holding
the partially written encoding `[1, 2]`, not nothing: the file is
created and written incrementally and nothing cleans it up on error. -/
theorem c6_partial_file_counterexample :
    strict_serialize_to_file 2 [[1], [2], [3]] = (.error .io, [1, 2]) ∧
    ([1, 2] : List Nat) ≠ [] :=
  ⟨rfl, by simp⟩

/-- C6 (amended): when the encoded length exceeds the declared
maximum, `to_strict_serialized` returns an error and never a confined
buffer, and `strict_serialize_to_file` returns an error as well — but
the bytes written before the bound was hit remain at the target path:
that residue is a prefix of the full encoding of length at most `MAX`
(possibly nonempty), not the absence of any partial result. -/
theorem c6_oversize_serialization_fails (MAX : Nat) (chunks : List (List Nat))
    (h : MAX < (chunks.map List.length).sum) :
    to_strict_serialized MAX chunks = .error .io ∧
    (strict_serialize_to_file MAX chunks).1 = .error .io ∧
    (strict_serialize_to_file MAX chunks).2.length ≤ MAX ∧
    (strict_serialize_to_file MAX chunks).2 <+: chunks.flatten := by
  have herr : (run_encode ⟨MAX, []⟩ chunks).1 = .error .io :=
    run_encode_overflow chunks ⟨MAX, []⟩ (by simp) (by simpa using h)
  have hle : (run_encode ⟨MAX, []⟩ chunks).2.sink.length ≤ MAX :=
    run_encode_sink_le chunks ⟨MAX, []⟩ (by simp)
  have hpre : (run_encode ⟨MAX, []⟩ chunks).2.sink <+: chunks.flatten := by
    simpa using run_encode_sink_prefix chunks ⟨MAX, []⟩
  refine ⟨?_, ?_, ?_, ?_⟩
  · unfold to_strict_serialized
    rw [herr]
  · unfold strict_serialize_to_file
    rw [show run_encode ⟨MAX, []⟩ chunks =
      ((run_encode ⟨MAX, []⟩ chunks).1, (run_encode ⟨MAX, []⟩ chunks).2) from rfl, herr]
  · unfold strict_serialize_to_file
    rw [show run_encode ⟨MAX, []⟩ chunks =
      ((run_encode ⟨MAX, []⟩ chunks).1, (run_encode ⟨MAX, []⟩ chunks).2) from rfl, herr]
    exact hle
  · unfold strict_serialize_to_file
    rw [show run_encode ⟨MAX, []⟩ chunks =
      ((run_encode ⟨MAX, []⟩ chunks).1, (run_encode ⟨MAX, []⟩ chunks).2) from rfl, herr]
    exact hpre

/-- Witness for the amended C6 at bound 2 with the oversize chunk
trace `[1]`, `[2]`, `[3]`. -/
theorem c6_oversize_serialization_fails_witness :
    to_strict_serialized 2 [[1], [2], [3]] = .error .io ∧
    (strict_serialize_to_file 2 [[1], [2], [3]]).1 = .error .io ∧
    (strict_serialize_to_file 2 [[1], [2], [3]]).2.length ≤ 2 ∧
    (strict_serialize_to_file 2 [[1], [2], [3]]).2 <+: [[1], [2], [3]].flatten :=
  c6_oversize_serialization_fails 2 [[1], [2], [3]] (by simp)

/-- C4: on an enumeration shape `load` fails with `EnumTagNotKnown`
(carrying the rendered specifier and the offending byte) exactly when
the next byte is not among the declared tags, and otherwise produces
the enum value holding the tag; on a union shape it fails the same way
exactly when no variant has the byte as its ordinal, and otherwise
recursively loads the ordinal's payload type and wraps the result. -/
theorem c4_enum_union_tag_validation (sys : TypeSystem) (fuel : Nat) (s : SemId)
    (b : Nat) (rest : List Nat) :
    (∀ vs, sys.find s = some (.enum vs) →
      (has_tag vs b = false →
        load sys (fuel + 1) s (b :: rest) =
          some (.error (.err (.decode (.enumTagNotKnown (toString s) b))))) ∧
      (has_tag vs b = true →
        load sys (fuel + 1) s (b :: rest) = some (.ok (⟨.enumer b, s⟩, rest)))) ∧
    (∀ uvs, sys.find s = some (.union uvs) →
      (ty_by_ord uvs b = none →
        load sys (fuel + 1) s (b :: rest) =
          some (.error (.err (.decode (.enumTagNotKnown (toString s) b))))) ∧
      (∀ t, ty_by_ord uvs b = some t →
        load sys (fuel + 1) s (b :: rest) =
          (load sys fuel t rest).map
            (Except.map (fun p => (⟨.union b p.1.val, s⟩, p.2))))) := by
  have hrb : read_bytes 1 (b :: rest) = some ([b], rest) := by
    simp [read_bytes]
  have hlv : le_val [b] = b := by
    simp [le_val]
  constructor
  · intro vs hf
    constructor
    · intro htag
      simp [load, loadBody, hf, loadVal, hrb, hlv, htag]
    · intro htag
      simp [load, loadBody, hf, loadVal, hrb, hlv, htag]
  · intro uvs hf
    constructor
    · intro hord
      simp [load, loadBody, hf, loadVal, hrb, hlv, hord]
    · intro t hord
      rcases hl : load sys fuel t rest with _ | e | ⟨tv, d2⟩ <;>
        simp [load, loadBody, hf, loadVal, hrb, hlv, hord, hl, Except.map]

/-- Witness for C4 on a three-tag enumeration (tags 0, 1, 2) and a
two-variant union: byte 5 and ordinal 9 are rejected with the
specifier text and the offending byte; declared tag 2 and ordinal 1
decode. -/
theorem c4_enum_union_tag_validation_witness :
    load sys_w 1 3 [5] = some (.error (.err (.decode (.enumTagNotKnown "3" 5)))) ∧
    load sys_w 1 3 [2] = some (.ok (⟨.enumer 2, 3⟩, [])) ∧
    load sys_w 2 4 [9] = some (.error (.err (.decode (.enumTagNotKnown "4" 9)))) ∧
    load sys_w 2 4 [1, 7] = some (.ok (⟨.union 1 (.num 7), 4⟩, [])) :=
  ⟨((c4_enum_union_tag_validation sys_w 0 3 5 []).1 _ rfl).1 rfl,
   ((c4_enum_union_tag_validation sys_w 0 3 2 []).1 _ rfl).2 rfl,
   ((c4_enum_union_tag_validation sys_w 1 4 9 []).2 _ rfl).1 rfl,
   (((c4_enum_union_tag_validation sys_w 1 4 1 [7]).2 _ rfl).2 0 rfl).trans rfl⟩

/-- C5: refuted on the code.  Loading against the bare unicode-scalar
shape does not return the `NotImplemented` error value used for
unknown primitive kinds: it panics through the `todo!` placeholder
(and the fixed-size-array arm behaves the same way). -/
theorem c5_todo_panic_counterexample :
    load sys_c5 1 0 [] = some (.error (.panic "not yet implemented")) ∧
    is_not_implemented_err (load sys_c5 1 0 []) = false ∧
    load sys_c5 1 1 [] = some (.error (.panic "not yet implemented")) ∧
    is_not_implemented_err (load sys_c5 1 1 []) = false :=
  ⟨rfl, rfl, rfl, rfl⟩

/-- C5 (amended): unknown primitive kinds (including the commented-out
`I24`) make `load` return the explicit `NotImplemented` error value,
while the fixed-size-array and bare unicode-scalar arms are `todo!`
placeholders that panic with "not yet implemented" — a deliberate
controlled panic rather than the returned error value, and never
garbage decoding. -/
theorem c5_unsupported_shape_failure_modes (sys : TypeSystem) (fuel : Nat)
    (s : SemId) (d : List Nat) :
    (sys.find s = some .unicodeChar →
      load sys (fuel + 1) s d = some (.error (.panic "not yet implemented"))) ∧
    (∀ e n, sys.find s = some (.array e n) →
      load sys (fuel + 1) s d = some (.error (.panic "not yet implemented"))) ∧
    (∀ c, sys.find s = some (.primitive (.other c)) →
      load sys (fuel + 1) s d =
        some (.error (.err (.notImplemented (not_implemented_msg (.other c)))))) ∧
    (sys.find s = some (.primitive .i24) →
      load sys (fuel + 1) s d =
        some (.error (.err (.notImplemented (not_implemented_msg .i24))))) := by
  refine ⟨?_, ?_, ?_, ?_⟩
  · intro hf
    simp [load, loadBody, hf, loadVal]
  · intro e n hf
    simp [load, loadBody, hf, loadVal]
  · intro c hf
    simp [load, loadBody, hf, loadVal, prim_width]
  · intro hf
    simp [load, loadBody, hf, loadVal, prim_width]

/-- Witness for the amended C5 on the concrete registry holding the
four unsupported shapes. -/
theorem c5_unsupported_shape_failure_modes_witness :
    load sys_c5 1 0 [9] = some (.error (.panic "not yet implemented")) ∧
    load sys_c5 1 1 [9] = some (.error (.panic "not yet implemented")) ∧
    load sys_c5 1 2 [9] =
      some (.error (.err (.notImplemented (not_implemented_msg (.other 77))))) ∧
    load sys_c5 1 3 [9] =
      some (.error (.err (.notImplemented (not_implemented_msg .i24)))) :=
  ⟨(c5_unsupported_shape_failure_modes sys_c5 0 0 [9]).1 rfl,
   (c5_unsupported_shape_failure_modes sys_c5 0 1 [9]).2.1 9 4 rfl,
   (c5_unsupported_shape_failure_modes sys_c5 0 2 [9]).2.2.1 77 rfl,
   (c5_unsupported_shape_failure_modes sys_c5 0 3 [9]).2.2.2 rfl⟩

theorem indexMapInsert_append (acc : List (String × StrictVal)) (k : String) (v : StrictVal)
    (h : acc.any (fun p => p.1 == k) = false) :
    indexMapInsert acc k v = acc ++ [(k, v)] := by
  simp [indexMapInsert, h]

theorem load_struct_eq (sys : TypeSystem) (fuel : Nat) (s : SemId) (reqs : List Field)
    (d : List Nat) (hf : sys.find s = some (.struct reqs)) :
    load sys (fuel + 1) s d =
      match read_fields (load sys fuel) reqs d [] with
      | none => none
      | some (.error e) => some (.error e)
      | some (.ok (flds, d2)) => some (.ok (⟨.struct flds, s⟩, d2)) := by
  rcases hrf : read_fields (load sys fuel) reqs d [] with _ | e | ⟨flds, d3⟩ <;>
    simp [load, loadBody, hf, loadVal, hrf]

theorem read_fields_keys (ld : SemId → List Nat → LoadRes) (fs : List Field) :
    ∀ d acc m d2, (fs.map Field.name).Nodup →
      (∀ f ∈ fs, acc.any (fun p => p.1 == f.name) = false) →
      read_fields ld fs d acc = some (.ok (m, d2)) →
      m.map Prod.fst = acc.map Prod.fst ++ fs.map Field.name := by
  induction fs with
  | nil =>
    intro d acc m d2 _ _ h
    simp [read_fields] at h
    simp [h.1]
  | cons f fs ih =>
    intro d acc m d2 hnd hacc h
    rw [read_fields] at h
    rcases hld : ld f.ty d with _ | e | ⟨item, d1⟩ <;> rw [hld] at h <;> simp at h
    have hfacc : acc.any (fun p => p.1 == f.name) = false := hacc f (by simp)
    rw [indexMapInsert_append acc f.name item.val hfacc] at h
    have hnotin : f.name ∉ fs.map Field.name := (List.nodup_cons.mp (by simpa using hnd)).1
    have hacc2 : ∀ g ∈ fs, ((acc ++ [(f.name, item.val)]).any (fun p => p.1 == g.name)) = false := by
      intro g hg
      have h1 := hacc g (by simp [hg])
      have hne : f.name ≠ g.name := by
        intro hEq
        exact hnotin (hEq ▸ List.mem_map_of_mem Field.name hg)
      simp [List.any_append, h1, hne]
    have hrec := ih d1 (acc ++ [(f.name, item.val)]) m d2
      (List.nodup_cons.mp (by simpa using hnd)).2 hacc2 h
    rw [hrec]
    simp

/-- C7: on a struct shape with pairwise-distinct declared field names,
`load` decodes each declared field by its declared type in declared
order and produces a struct value whose name-to-value mapping iterates
its keys in exactly the declared schema order. -/
theorem c7_struct_field_order (sys : TypeSystem) (fuel : Nat) (s : SemId)
    (reqs : List Field) (d : List Nat) (tv : TypedVal) (d2 : List Nat)
    (hf : sys.find s = some (.struct reqs))
    (hnd : (reqs.map Field.name).Nodup)
    (h : load sys (fuel + 1) s d = some (.ok (tv, d2))) :
    struct_keys tv.val = some (reqs.map Field.name) := by
  rw [load_struct_eq sys fuel s reqs d hf] at h
  rcases hrf : read_fields (load sys fuel) reqs d [] with _ | e | ⟨flds, d3⟩ <;> rw [hrf] at h
  · exact absurd h (by simp)
  · exact absurd h (by simp)
  · simp at h
    have hkeys := read_fields_keys (load sys fuel) reqs d [] flds d3 hnd
      (by intro f hmem; simp) hrf
    rw [← h.1]
    simpa [struct_keys] using hkeys

/-- Witness for C7: a struct with fields named "a" then "b" decodes to
a mapping whose keys iterate as `["a", "b"]`. -/
theorem c7_struct_field_order_witness :
    struct_keys (TypedVal.mk (.struct [("a", .num 7), ("b", .num 9)]) 1).val =
      some ["a", "b"] :=
  c7_struct_field_order sys_w 1 1 [⟨"a", 0⟩, ⟨"b", 0⟩] [7, 9]
    ⟨.struct [("a", .num 7), ("b", .num 9)], 1⟩ [] rfl (by simp) rfl

/-- C8: the decoded length prefix of a non-text list, set or map is
never compared against the shape's declared sizing bounds: for every
bound `[mn, mx]` within a tier, whatever length the prefix denotes is
passed to `read_list` / `read_map` unchecked, and decoding succeeds
whenever that many elements can be read, regardless of `mn` and `mx`
(stated for the 1-byte list, 2-byte list, 1-byte set and 1-byte map
tier arms; the remaining tier arms are syntactically identical in
`loadVal` up to the prefix width). -/
theorem c8_sizing_bounds_unchecked (sys : TypeSystem) (fuel : Nat) (s e mn mx : Nat)
    (b : Nat) (rest : List Nat)
    (hu : sys.isUnicodeChar e = false) (ha : sys.isAsciiChar e = false) :
    (sys.find s = some (.list e ⟨mn, mx⟩) → mx ≤ 255 →
      ∀ items rest2, read_list (load sys fuel) b e rest = some (.ok (items, rest2)) →
        load sys (fuel + 1) s (b :: rest) = some (.ok (⟨.list items, s⟩, rest2))) ∧
    (∀ b2, sys.find s = some (.list e ⟨mn, mx⟩) → 255 < mx → mx ≤ 65535 →
      ∀ items rest2,
        read_list (load sys fuel) (b + 256 * b2) e rest = some (.ok (items, rest2)) →
        load sys (fuel + 1) s (b :: b2 :: rest) = some (.ok (⟨.list items, s⟩, rest2))) ∧
    (sys.find s = some (.set e ⟨mn, mx⟩) → mx ≤ 255 →
      ∀ items rest2, read_list (load sys fuel) b e rest = some (.ok (items, rest2)) →
        load sys (fuel + 1) s (b :: rest) = some (.ok (⟨.set items, s⟩, rest2))) ∧
    (∀ kt, sys.find s = some (.map kt e ⟨mn, mx⟩) → mx ≤ 255 →
      ∀ items rest2, read_map (load sys fuel) b kt e rest = some (.ok (items, rest2)) →
        load sys (fuel + 1) s (b :: rest) = some (.ok (⟨.map items, s⟩, rest2))) := by
  have hrb1 : read_bytes 1 (b :: rest) = some ([b], rest) := by
    simp [read_bytes]
  have hlv1 : le_val [b] = b := by
    simp [le_val]
  refine ⟨?_, ?_, ?_, ?_⟩
  · intro hf hmx items rest2 hrl
    simp [load, loadBody, hf, loadVal, hu, ha, hmx, read_col, hrb1, hlv1, hrl]
  · intro b2 hf hmx1 hmx2 items rest2 hrl
    have hrb2 : read_bytes 2 (b :: b2 :: rest) = some ([b, b2], rest) := by
      simp [read_bytes]
    have hlv2 : le_val [b, b2] = b + 256 * b2 := by
      simp [le_val]
    have hn : ¬ mx ≤ 255 := by omega
    simp [load, loadBody, hf, loadVal, hu, ha, hn, hmx2, read_col, hrb2, hlv2, hrl]
  · intro hf hmx items rest2 hrl
    simp [load, loadBody, hf, loadVal, hmx, read_col, hrb1, hlv1, hrl]
  · intro kt hf hmx items rest2 hrm
    simp [load, loadBody, hf, loadVal, hmx, read_map_col, hrb1, hlv1, hrm]

/-- Witness for C8: with declared bound `[2, 5]` a prefix of 7 decodes
seven elements and a prefix of 0 decodes an empty set and a prefix of
1 decodes a one-entry map, all outside the declared bounds; with bound
`[0, 300]` the 2-byte tier likewise passes the decoded length through
unchecked. -/
theorem c8_sizing_bounds_unchecked_witness :
    load sys_w 2 5 [7, 10, 20, 30, 40, 50, 60, 70] =
      some (.ok (⟨.list [.num 10, .num 20, .num 30, .num 40, .num 50, .num 60, .num 70], 5⟩,
        [])) ∧
    load sys_w 2 8 [2, 0, 9, 8] = some (.ok (⟨.list [.num 9, .num 8], 8⟩, [])) ∧
    load sys_w 2 6 [0] = some (.ok (⟨.set [], 6⟩, [])) ∧
    load sys_w 2 7 [1, 3, 4] = some (.ok (⟨.map [(.num 3, .num 4)], 7⟩, [])) :=
  ⟨(c8_sizing_bounds_unchecked sys_w 1 5 0 2 5 7 [10, 20, 30, 40, 50, 60, 70]
      rfl rfl).1 rfl (by omega) _ _ rfl,
   (c8_sizing_bounds_unchecked sys_w 1 8 0 0 300 2 [9, 8] rfl rfl).2.1 0 rfl
      (by omega) (by omega) _ _ rfl,
   (c8_sizing_bounds_unchecked sys_w 1 6 0 2 5 0 [] rfl rfl).2.2.1 rfl (by omega) _ _ rfl,
   (c8_sizing_bounds_unchecked sys_w 1 7 0 2 5 1 [3, 4] rfl rfl).2.2.2 0 rfl
      (by omega) _ _ rfl⟩

/-- C10: on a struct shape declaring two fields with the same name,
`load` still consumes the bytes of both declared fields in order, but
the resulting struct value holds a single entry for the duplicated
name carrying the later field's decoded value (the order-preserving
map's insert overwrites in place), so the result has fewer entries
than the shape has declared fields. -/
theorem c10_duplicate_field_overwrite (sys : TypeSystem) (fuel : Nat) (s : SemId)
    (fname : String) (t1 t2 : SemId) (d d1 d2 : List Nat) (v1 v2 : TypedVal)
    (hf : sys.find s = some (.struct [⟨fname, t1⟩, ⟨fname, t2⟩]))
    (h1 : load sys fuel t1 d = some (.ok (v1, d1)))
    (h2 : load sys fuel t2 d1 = some (.ok (v2, d2))) :
    load sys (fuel + 1) s d = some (.ok (⟨.struct [(fname, v2.val)], s⟩, d2)) := by
  rw [load_struct_eq sys fuel s _ d hf]
  have hrf : read_fields (load sys fuel) [⟨fname, t1⟩, ⟨fname, t2⟩] d [] =
      some (.ok ([(fname, v2.val)], d2)) := by
    simp [read_fields, h1, h2, indexMapInsert]
  rw [hrf]

/-- Witness for C10: the struct declaring the field name "a" twice
over one-byte integers consumes both bytes of `[7, 9]` and yields the
single entry `("a", 9)`. -/
theorem c10_duplicate_field_overwrite_witness :
    load sys_w 2 2 [7, 9] = some (.ok (⟨.struct [("a", .num 9)], 2⟩, [])) :=
  c10_duplicate_field_overwrite sys_w 1 2 "a" 0 0 [7, 9] [9] [] ⟨.num 7, 0⟩ ⟨.num 9, 0⟩
    rfl rfl rfl

end StrictTypes
